import Mathlib

/-!
Verification of the foreground-child process orchestrator.

The definitions below are a shallow embedding of `src/index.ts` and
`src/proxy-signals.ts`: the event handlers become pure functions from explicit
state to state plus a trace of host-process effects, and the JavaScript
try/catch blocks around signal subscription and delivery become
`Except`-valued computations whose failures are caught where the source
catches them.
-/

namespace ForegroundChild

/-- Signal names, e.g. "SIGINT". -/
abbrev Signal := String

/-- Modelled from the spec: the Signal Catalog (`all-signals.ts`, which is
imported by `proxy-signals.ts` but absent from `src/`): an ordered,
deduplicated sequence of every signal name the host recognizes.  Represented
here by the standard POSIX signal names. -/
def allSignals : List Signal :=
  ["SIGHUP", "SIGINT", "SIGQUIT", "SIGILL", "SIGTRAP", "SIGABRT", "SIGBUS",
   "SIGFPE", "SIGUSR1", "SIGSEGV", "SIGUSR2", "SIGPIPE", "SIGALRM", "SIGTERM"]

/-- The resolved value of the user cleanup callback (index.ts lines 38-50):
`undefined`, a number, a signal string, or boolean `false` (veto). -/
inductive CleanupResult where
  | undef
  | num (n : Int)
  | sig (s : Signal)
  | veto
deriving DecidableEq, Repr

/-- A cleanup callback may return its value directly or wrapped in a promise
(index.ts line 180: the result is awaited when it is a promise). -/
inductive CleanupReturn where
  | now (r : CleanupResult)
  | promised (r : CleanupResult)
deriving DecidableEq, Repr

/-- Index.ts line 180: `isPromise(result) ? await result : result`. -/
def awaitResult : CleanupReturn → CleanupResult
  | CleanupReturn.now r => r
  | CleanupReturn.promised r => r

/-- The user cleanup callback, as a function of the child's (code, signal). -/
abbrev Cleanup := Option Int → Option Signal → CleanupReturn

/-- Host-process effects performed by the handlers in index.ts. -/
inductive Effect where
  | cleanupCall (code : Option Int) (signal : Option Signal)
  | removeOnExit
  | scheduleKeepAlive (ms : Nat)
  | killSelfAttempt (s : Signal)
  | exitProcess (c : Int)
  | killChildAttempt (s : Signal)
deriving DecidableEq, Repr

/-- The platform environment: which signals the parent can subscribe to
(`process.on` may throw), which signals can be sent to the child
(`child.kill` may throw), which self-kills fail (`process.kill(process.pid)`
may throw), the signal catalog, and whether the parent has an IPC channel
(`process.send` is set). -/
structure Env where
  supported : Signal → Bool
  childKillable : Signal → Bool
  selfKillFails : Signal → Bool
  signals : List Signal
  hasIPC : Bool

/-- Index.ts lines 183-190: interpret the resolved cleanup value against the
child's (code, signal) pair.  `none` means the parent's exit was vetoed (the
handler returns early on `res === false`); otherwise the (code, signal) pair
after the reassignments. -/
def finalDisposition (res : CleanupResult) (code : Option Int)
    (signal : Option Signal) : Option (Option Int × Option Signal) :=
  match res with
  | CleanupResult.veto => none
  | CleanupResult.sig s => some (none, some s)
  | CleanupResult.num n => some (some n, none)
  | CleanupResult.undef => some (code, signal)

/-- The body of the child `close` handler (index.ts lines 172-209), run when
the `done` guard is not yet set, as the list of effects it performs in order.
The truthiness test `if (signal)` is false for `null` and for the empty
string; `code || 0` maps a missing code to 0. -/
def closeTrace (env : Env) (cleanup : Cleanup) (code : Option Int)
    (signal : Option Signal) : List Effect :=
  let res := awaitResult (cleanup code signal)
  let pre := [Effect.cleanupCall code signal, Effect.removeOnExit]
  match finalDisposition res code signal with
  | none => pre
  | some (c, s) =>
    match s with
    | some sg =>
      if sg = "" then pre ++ [Effect.exitProcess (c.getD 0)]
      else
        pre ++ [Effect.scheduleKeepAlive 2000, Effect.killSelfAttempt sg] ++
          (if env.selfKillFails sg then [Effect.killSelfAttempt "SIGTERM"]
           else [])
    | none => pre ++ [Effect.exitProcess (c.getD 0)]

/-- How the parent ends up, read off an effect trace: the first successful
terminating effect wins; a failing self-kill attempt falls through to
whatever comes next. -/
inductive Outcome where
  | alive
  | exited (c : Int)
  | killed (s : Signal)
deriving DecidableEq, Repr

def outcomeOfTrace (env : Env) : List Effect → Outcome
  | [] => Outcome.alive
  | e :: rest =>
    match e with
    | Effect.exitProcess c => Outcome.exited c
    | Effect.killSelfAttempt s =>
        if env.selfKillFails s then outcomeOfTrace env rest
        else Outcome.killed s
    | _ => outcomeOfTrace env rest

@[simp]
theorem outcomeOfTrace_nil (env : Env) : outcomeOfTrace env [] = Outcome.alive :=
  rfl

@[simp]
theorem outcomeOfTrace_cleanupCall (env : Env) (c : Option Int)
    (s : Option Signal) (r : List Effect) :
    outcomeOfTrace env (Effect.cleanupCall c s :: r) = outcomeOfTrace env r :=
  rfl

@[simp]
theorem outcomeOfTrace_removeOnExit (env : Env) (r : List Effect) :
    outcomeOfTrace env (Effect.removeOnExit :: r) = outcomeOfTrace env r :=
  rfl

@[simp]
theorem outcomeOfTrace_keepAlive (env : Env) (ms : Nat) (r : List Effect) :
    outcomeOfTrace env (Effect.scheduleKeepAlive ms :: r) = outcomeOfTrace env r :=
  rfl

@[simp]
theorem outcomeOfTrace_killChild (env : Env) (s : Signal) (r : List Effect) :
    outcomeOfTrace env (Effect.killChildAttempt s :: r) = outcomeOfTrace env r :=
  rfl

@[simp]
theorem outcomeOfTrace_exitProcess (env : Env) (c : Int) (r : List Effect) :
    outcomeOfTrace env (Effect.exitProcess c :: r) = Outcome.exited c :=
  rfl

@[simp]
theorem outcomeOfTrace_killSelf (env : Env) (s : Signal) (r : List Effect) :
    outcomeOfTrace env (Effect.killSelfAttempt s :: r)
      = if env.selfKillFails s then outcomeOfTrace env r else Outcome.killed s :=
  rfl

/-- A sample platform where everything works: every signal is supported,
sendable to the child, and self-kills never fail. -/
def envA : Env :=
  { supported := fun _ => true
    childKillable := fun _ => true
    selfKillFails := fun _ => false
    signals := allSignals
    hasIPC := false }

/-- Claim C3: when the resolved cleanup value is `undefined`, the parent's
final disposition equals the child's disposition exactly: a child that
exited with code n makes the parent exit with code n, and a child killed by
signal s makes the parent be killed by s. -/
theorem C3_undef_preserves_disposition (env : Env) (cleanup : Cleanup)
    (n : Int) (s : Signal) (hs : s ≠ "")
    (hn : awaitResult (cleanup (some n) none) = CleanupResult.undef)
    (hsg : awaitResult (cleanup none (some s)) = CleanupResult.undef)
    (hf : env.selfKillFails s = false) :
    outcomeOfTrace env (closeTrace env cleanup (some n) none) = Outcome.exited n
    ∧ outcomeOfTrace env (closeTrace env cleanup none (some s))
        = Outcome.killed s := by
  constructor
  · simp [closeTrace, hn, finalDisposition]
  · simp [closeTrace, hsg, finalDisposition, hs, hf]

/-- Witness for C3 at code 3 and signal "SIGINT". -/
theorem C3_witness :
    outcomeOfTrace envA
        (closeTrace envA (fun _ _ => CleanupReturn.now CleanupResult.undef)
          (some 3) none) = Outcome.exited 3
    ∧ outcomeOfTrace envA
        (closeTrace envA (fun _ _ => CleanupReturn.now CleanupResult.undef)
          none (some "SIGINT")) = Outcome.killed "SIGINT" :=
  C3_undef_preserves_disposition envA
    (fun _ _ => CleanupReturn.now CleanupResult.undef) 3 "SIGINT"
    (by decide) rfl rfl rfl

/-- Claim C4: a cleanup value of number n makes the parent exit with code n
and never attempt a self-signal; a cleanup value of signal s makes the
parent be killed by s and never perform a process exit; in both cases the
final disposition has exactly one meaningful component. -/
theorem C4_explicit_code_or_signal (env : Env) (clN clS : Cleanup)
    (code : Option Int) (signal : Option Signal) (n : Int) (s : Signal)
    (hs : s ≠ "") (hf : env.selfKillFails s = false)
    (hN : awaitResult (clN code signal) = CleanupResult.num n)
    (hS : awaitResult (clS code signal) = CleanupResult.sig s) :
    finalDisposition (awaitResult (clN code signal)) code signal
        = some (some n, none)
    ∧ outcomeOfTrace env (closeTrace env clN code signal) = Outcome.exited n
    ∧ (∀ s', Effect.killSelfAttempt s' ∉ closeTrace env clN code signal)
    ∧ finalDisposition (awaitResult (clS code signal)) code signal
        = some (none, some s)
    ∧ outcomeOfTrace env (closeTrace env clS code signal) = Outcome.killed s
    ∧ (∀ c', Effect.exitProcess c' ∉ closeTrace env clS code signal) := by
  refine ⟨by simp [hN, finalDisposition], ?_, ?_, by simp [hS, finalDisposition], ?_, ?_⟩
  · simp [closeTrace, hN, finalDisposition]
  · simp [closeTrace, hN, finalDisposition]
  · simp [closeTrace, hS, finalDisposition, hs, hf]
  · simp [closeTrace, hS, finalDisposition, hs, hf]

/-- Witness for C4 with cleanup values 7 and "SIGUSR1". -/
theorem C4_witness :
    finalDisposition
        (awaitResult ((fun _ _ => CleanupReturn.now (CleanupResult.num 7) : Cleanup)
          (some 0) none)) (some 0) none = some (some 7, none)
    ∧ outcomeOfTrace envA
        (closeTrace envA (fun _ _ => CleanupReturn.now (CleanupResult.num 7))
          (some 0) none) = Outcome.exited 7
    ∧ (∀ s', Effect.killSelfAttempt s'
        ∉ closeTrace envA (fun _ _ => CleanupReturn.now (CleanupResult.num 7))
            (some 0) none)
    ∧ finalDisposition
        (awaitResult ((fun _ _ => CleanupReturn.now (CleanupResult.sig "SIGUSR1") : Cleanup)
          (some 0) none)) (some 0) none = some (none, some "SIGUSR1")
    ∧ outcomeOfTrace envA
        (closeTrace envA (fun _ _ => CleanupReturn.now (CleanupResult.sig "SIGUSR1"))
          (some 0) none) = Outcome.killed "SIGUSR1"
    ∧ (∀ c', Effect.exitProcess c'
        ∉ closeTrace envA
            (fun _ _ => CleanupReturn.now (CleanupResult.sig "SIGUSR1"))
            (some 0) none) :=
  C4_explicit_code_or_signal envA
    (fun _ _ => CleanupReturn.now (CleanupResult.num 7))
    (fun _ _ => CleanupReturn.now (CleanupResult.sig "SIGUSR1"))
    (some 0) none 7 "SIGUSR1" (by decide) rfl rfl rfl

/-- Claim C5: a cleanup value of `false` vetoes the parent's exit: the close
handler performs only the cleanup call and the exit-hook removal, attempts
no self-signal and no process exit, and the parent stays alive. -/
theorem C5_veto_no_termination (env : Env) (cleanup : Cleanup)
    (code : Option Int) (signal : Option Signal)
    (h : awaitResult (cleanup code signal) = CleanupResult.veto) :
    closeTrace env cleanup code signal
        = [Effect.cleanupCall code signal, Effect.removeOnExit]
    ∧ outcomeOfTrace env (closeTrace env cleanup code signal) = Outcome.alive
    ∧ (∀ s', Effect.killSelfAttempt s' ∉ closeTrace env cleanup code signal)
    ∧ (∀ c', Effect.exitProcess c' ∉ closeTrace env cleanup code signal) := by
  refine ⟨?_, ?_, ?_, ?_⟩ <;> simp [closeTrace, h, finalDisposition]

/-- Witness for C5 at a child killed by "SIGTERM". -/
theorem C5_witness :
    closeTrace envA (fun _ _ => CleanupReturn.now CleanupResult.veto)
        none (some "SIGTERM")
      = [Effect.cleanupCall none (some "SIGTERM"), Effect.removeOnExit]
    ∧ outcomeOfTrace envA
        (closeTrace envA (fun _ _ => CleanupReturn.now CleanupResult.veto)
          none (some "SIGTERM")) = Outcome.alive
    ∧ (∀ s', Effect.killSelfAttempt s'
        ∉ closeTrace envA (fun _ _ => CleanupReturn.now CleanupResult.veto)
            none (some "SIGTERM"))
    ∧ (∀ c', Effect.exitProcess c'
        ∉ closeTrace envA (fun _ _ => CleanupReturn.now CleanupResult.veto)
            none (some "SIGTERM")) :=
  C5_veto_no_termination envA (fun _ _ => CleanupReturn.now CleanupResult.veto)
    none (some "SIGTERM") rfl

/-- Claim C6: in the reconciling step, a signal-carrying final disposition
first schedules the 2000 ms no-op keep-alive, then attempts the self-kill
with that signal, with exactly one fallback attempt ("SIGTERM") exactly when
the first send fails and no further retry; a code-carrying disposition exits
immediately with that code, defaulting to 0 when the code is absent. -/
theorem C6_reconcile_termination (env : Env) (cleanup : Cleanup)
    (code c' : Option Int) (signal : Option Signal) (s' : Signal)
    (hs : s' ≠ "") :
    (finalDisposition (awaitResult (cleanup code signal)) code signal
        = some (c', some s') →
      closeTrace env cleanup code signal
        = [Effect.cleanupCall code signal, Effect.removeOnExit,
           Effect.scheduleKeepAlive 2000, Effect.killSelfAttempt s']
          ++ (if env.selfKillFails s' then [Effect.killSelfAttempt "SIGTERM"]
              else []))
    ∧ (finalDisposition (awaitResult (cleanup code signal)) code signal
        = some (c', none) →
      closeTrace env cleanup code signal
        = [Effect.cleanupCall code signal, Effect.removeOnExit,
           Effect.exitProcess (c'.getD 0)]) := by
  constructor
  · intro h
    simp [closeTrace, h, hs]
  · intro h
    simp [closeTrace, h]

/-- Witness for C6: a failing platform for "SIGQUIT" produces exactly one
"SIGTERM" fallback, and a null code exits with 0. -/
theorem C6_witness :
    closeTrace
        { supported := fun _ => true, childKillable := fun _ => true,
          selfKillFails := fun _ => true, signals := allSignals,
          hasIPC := false }
        (fun _ _ => CleanupReturn.now (CleanupResult.sig "SIGQUIT")) (some 0) none
      = [Effect.cleanupCall (some 0) none, Effect.removeOnExit,
         Effect.scheduleKeepAlive 2000, Effect.killSelfAttempt "SIGQUIT",
         Effect.killSelfAttempt "SIGTERM"]
    ∧ closeTrace envA (fun _ _ => CleanupReturn.now CleanupResult.undef)
        none none
      = [Effect.cleanupCall none none, Effect.removeOnExit,
         Effect.exitProcess 0] := by
  constructor
  · exact (C6_reconcile_termination
      { supported := fun _ => true, childKillable := fun _ => true,
        selfKillFails := fun _ => true, signals := allSignals,
        hasIPC := false }
      (fun _ _ => CleanupReturn.now (CleanupResult.sig "SIGQUIT"))
      (some 0) none none "SIGQUIT" (by decide)).1 rfl
  · exact (C6_reconcile_termination envA
      (fun _ _ => CleanupReturn.now CleanupResult.undef)
      none none none "SIGINT" (by decide)).2 rfl

/-- Proxy-signals.ts lines 26-31: `process.on(sig, listener)` may throw for a
signal name the platform does not recognize; on success the parent's listener
list grows by the pair (signal, listener id). -/
def subscribeE (supported : Signal → Bool) (st : List (Signal × Nat))
    (sg : Signal) (j : Nat) : Except Unit (List (Signal × Nat)) :=
  if supported sg then Except.ok (st ++ [(sg, j)]) else Except.error ()

/-- Insertion-order set semantics of the `listeners` map: replace the entry
for an existing key in place, otherwise append. -/
def mapSet (tbl : List (Signal × Nat)) (sg : Signal) (j : Nat) :
    List (Signal × Nat) :=
  if tbl.any (fun p => p.1 == sg) then
    tbl.map (fun p => if p.1 == sg then (sg, j) else p)
  else tbl ++ [(sg, j)]

/-- The for-loop of proxy-signals.ts lines 14-33: skip falsy names, try to
subscribe (the catch block swallows the failure and skips the map entry),
and record successful subscriptions in the listeners map.  Listener ids
count up from the loop start index. -/
def proxyLoop (supported : Signal → Bool) :
    List Signal → Nat → List (Signal × Nat) → List (Signal × Nat) →
    List (Signal × Nat) × List (Signal × Nat)
  | [], _, st, tbl => (st, tbl)
  | sg :: rest, i, st, tbl =>
    if sg = "" then proxyLoop supported rest (i + 1) st tbl
    else
      match subscribeE supported st sg i with
      | Except.ok st' => proxyLoop supported rest (i + 1) st' (mapSet tbl sg i)
      | Except.error _ => proxyLoop supported rest (i + 1) st tbl

/-- The listener pairs that a run of the proxy loop adds to the parent. -/
def addedListeners (supported : Signal → Bool) :
    List Signal → Nat → List (Signal × Nat)
  | [], _ => []
  | sg :: rest, i =>
    if sg = "" then addedListeners supported rest (i + 1)
    else if supported sg then (sg, i) :: addedListeners supported rest (i + 1)
    else addedListeners supported rest (i + 1)

theorem proxyLoop_eq (supported : Signal → Bool) (sigs : List Signal) :
    ∀ (i : Nat) (st tbl : List (Signal × Nat)),
      proxyLoop supported sigs i st tbl
        = (st ++ addedListeners supported sigs i,
           (addedListeners supported sigs i).foldl
             (fun t p => mapSet t p.1 p.2) tbl) := by
  induction sigs with
  | nil => intro i st tbl; simp [proxyLoop, addedListeners]
  | cons sg rest ih =>
    intro i st tbl
    by_cases h0 : sg = ""
    · simp [proxyLoop, addedListeners, h0, ih]
    · by_cases hsup : supported sg = true
      · simp [proxyLoop, addedListeners, h0, hsup, subscribeE, ih]
      · simp [proxyLoop, addedListeners, h0, hsup, subscribeE, ih]

/-- `process.removeListener(sig, listener)`: remove the first matching
registration. -/
def removeListener : List (Signal × Nat) → Signal × Nat → List (Signal × Nat)
  | [], _ => []
  | q :: rest, p => if q = p then rest else q :: removeListener rest p

/-- Proxy-signals.ts lines 35-40 (`unproxy`): remove every listener recorded
in the map from the parent's listener list, in map order.  The map itself is
not cleared. -/
def removeAll (tbl : List (Signal × Nat)) (l : List (Signal × Nat)) :
    List (Signal × Nat) :=
  tbl.foldl removeListener l

theorem removeListener_of_not_mem (p : Signal × Nat) :
    ∀ l : List (Signal × Nat), p ∉ l → removeListener l p = l := by
  intro l
  induction l with
  | nil => intro _; rfl
  | cons q rest ih =>
    intro h
    have hq : q ≠ p := by rintro rfl; exact h (List.mem_cons_self ..)
    have hrest : p ∉ rest := fun hm => h (List.mem_cons_of_mem _ hm)
    simp [removeListener, hq, ih hrest]

theorem removeListener_append (p : Signal × Nat) :
    ∀ (l1 l2 : List (Signal × Nat)), p ∉ l1 →
      removeListener (l1 ++ p :: l2) p = l1 ++ l2 := by
  intro l1
  induction l1 with
  | nil => intro l2 _; simp [removeListener]
  | cons q rest ih =>
    intro l2 h
    have hq : q ≠ p := by rintro rfl; exact h (List.mem_cons_self ..)
    have hrest : p ∉ rest := fun hm => h (List.mem_cons_of_mem _ hm)
    simp [removeListener, hq, ih l2 hrest]

theorem removeAll_restores :
    ∀ (tbl pre : List (Signal × Nat)), (∀ p ∈ tbl, p ∉ pre) → tbl.Nodup →
      removeAll tbl (pre ++ tbl) = pre := by
  intro tbl
  induction tbl with
  | nil => intro pre _ _; simp [removeAll]
  | cons p ts ih =>
    intro pre h hn
    have hp : p ∉ pre := h p (List.mem_cons_self ..)
    have hstep : removeAll (p :: ts) (pre ++ p :: ts)
        = removeAll ts (pre ++ ts) := by
      simp [removeAll, List.foldl_cons, removeListener_append p pre ts hp]
    rw [hstep]
    exact ih pre (fun q hq => h q (List.mem_cons_of_mem _ hq)) hn.of_cons

theorem removeAll_of_disjoint :
    ∀ (tbl l : List (Signal × Nat)), (∀ p ∈ tbl, p ∉ l) →
      removeAll tbl l = l := by
  intro tbl
  induction tbl with
  | nil => intro l _; rfl
  | cons p ts ih =>
    intro l h
    have hstep : removeAll (p :: ts) l = removeAll ts l := by
      simp [removeAll, List.foldl_cons,
        removeListener_of_not_mem p l (h p (List.mem_cons_self ..))]
    rw [hstep]
    exact ih l (fun q hq => h q (List.mem_cons_of_mem _ hq))

theorem mem_addedListeners (supported : Signal → Bool) :
    ∀ (sigs : List Signal) (i : Nat) (p : Signal × Nat),
      p ∈ addedListeners supported sigs i →
      supported p.1 = true ∧ p.1 ≠ "" ∧ i ≤ p.2 ∧ p.1 ∈ sigs := by
  intro sigs
  induction sigs with
  | nil => intro i p h; simp [addedListeners] at h
  | cons sg rest ih =>
    intro i p h
    simp only [addedListeners] at h
    split at h
    · obtain ⟨h1, h2, h3, h4⟩ := ih (i + 1) p h
      exact ⟨h1, h2, Nat.le_of_succ_le h3, List.mem_cons_of_mem _ h4⟩
    · split at h
      · rcases List.mem_cons.mp h with h | h
        · subst h
          rename_i h0 hsup
          exact ⟨hsup, h0, Nat.le_refl i, List.mem_cons_self ..⟩
        · obtain ⟨h1, h2, h3, h4⟩ := ih (i + 1) p h
          exact ⟨h1, h2, Nat.le_of_succ_le h3, List.mem_cons_of_mem _ h4⟩
      · obtain ⟨h1, h2, h3, h4⟩ := ih (i + 1) p h
        exact ⟨h1, h2, Nat.le_of_succ_le h3, List.mem_cons_of_mem _ h4⟩

theorem keys_addedListeners_nodup (supported : Signal → Bool) :
    ∀ (sigs : List Signal) (i : Nat), sigs.Nodup →
      ((addedListeners supported sigs i).map Prod.fst).Nodup := by
  intro sigs
  induction sigs with
  | nil => intro i _; simp [addedListeners]
  | cons sg rest ih =>
    intro i hn
    have hrest := ih (i + 1) hn.of_cons
    simp only [addedListeners]
    split
    · exact hrest
    · split
      · rw [List.map_cons]
        refine List.nodup_cons.mpr ⟨?_, hrest⟩
        intro hmem
        obtain ⟨q, hq, hqe⟩ := List.mem_map.mp hmem
        have hns : sg ∉ rest := (List.nodup_cons.mp hn).1
        have hqr := (mem_addedListeners supported rest (i + 1) q hq).2.2.2
        rw [hqe] at hqr
        exact hns hqr
      · exact hrest

theorem foldl_mapSet_append :
    ∀ (l tbl : List (Signal × Nat)),
      ((l.map Prod.fst).Nodup) →
      (∀ p ∈ l, ∀ q ∈ tbl, q.1 ≠ p.1) →
      l.foldl (fun t p => mapSet t p.1 p.2) tbl = tbl ++ l := by
  intro l
  induction l with
  | nil => intro tbl _ _; simp
  | cons p ts ih =>
    intro tbl hn hdis
    rw [List.map_cons, List.nodup_cons] at hn
    have hany : tbl.any (fun q => q.1 == p.1) = false := by
      rw [List.any_eq_false]
      intro q hq
      simpa using hdis p (List.mem_cons_self ..) q hq
    have h1 : mapSet tbl p.1 p.2 = tbl ++ [p] := by
      simp [mapSet, hany]
    have hdis2 : ∀ r ∈ ts, ∀ q ∈ tbl ++ [p], q.1 ≠ r.1 := by
      intro r hr q hq
      rcases List.mem_append.mp hq with hq | hq
      · exact hdis r (List.mem_cons_of_mem _ hr) q hq
      · have hqp : q = p := by simpa using hq
        subst hqp
        intro he
        refine hn.1 ?_
        rw [he]
        exact List.mem_map_of_mem Prod.fst hr
    rw [List.foldl_cons, h1, ih (tbl ++ [p]) hn.2 hdis2]
    simp

/-- Proxy-signals.ts `proxySignals`: run the subscription loop over the
catalog (listener ids counting up from `base`), returning the parent's new
listener list and the `listeners` map; `unproxy` (modelled by `removeAll`
over the returned map) is both registered on the child's exit event and
returned to the caller. -/
def proxySignals (env : Env) (base : Nat) (initSig : List (Signal × Nat)) :
    List (Signal × Nat) × List (Signal × Nat) :=
  proxyLoop env.supported env.signals base initSig []

theorem proxySignals_eq (env : Env) (base : Nat)
    (initSig : List (Signal × Nat)) (hn : env.signals.Nodup) :
    proxySignals env base initSig
      = (initSig ++ addedListeners env.supported env.signals base,
         addedListeners env.supported env.signals base) := by
  rw [proxySignals, proxyLoop_eq]
  have h2 := foldl_mapSet_append
    (addedListeners env.supported env.signals base) []
    (keys_addedListeners_nodup env.supported env.signals base hn) (by simp)
  simp [h2]

/-- Proxy-signals.ts line 21: `child.kill(sig)` may throw for a signal that
can be received but not sent. -/
def childKillE (killable : Signal → Bool) (sg : Signal) : Except Unit Unit :=
  if killable sg then Except.ok () else Except.error ()

/-- Proxy-signals.ts lines 18-25: the forwarding listener wraps `child.kill`
in try/catch with an empty catch block, so it always returns normally. -/
def signalListener (killable : Signal → Bool) (sg : Signal) :
    Except Unit Unit :=
  match childKillE killable sg with
  | Except.ok _ => Except.ok ()
  | Except.error _ => Except.ok ()

theorem mem_mapSet (tbl : List (Signal × Nat)) (sg : Signal) (j : Nat)
    (p : Signal × Nat) (h : p ∈ mapSet tbl sg j) : p ∈ tbl ∨ p = (sg, j) := by
  unfold mapSet at h
  split at h
  · obtain ⟨q, hq, hqe⟩ := List.mem_map.mp h
    by_cases hqs : q.1 == sg
    · rw [if_pos hqs] at hqe
      exact Or.inr hqe.symm
    · rw [if_neg hqs] at hqe
      exact Or.inl (hqe ▸ hq)
  · rcases List.mem_append.mp h with h1 | h1
    · exact Or.inl h1
    · exact Or.inr (by simpa using h1)

theorem mem_foldl_mapSet :
    ∀ (l tbl : List (Signal × Nat)) (p : Signal × Nat),
      p ∈ l.foldl (fun t q => mapSet t q.1 q.2) tbl → p ∈ tbl ∨ p ∈ l := by
  intro l
  induction l with
  | nil => intro tbl p h; exact Or.inl (by simpa using h)
  | cons q ts ih =>
    intro tbl p h
    rw [List.foldl_cons] at h
    rcases ih (mapSet tbl q.1 q.2) p h with h1 | h1
    · rcases mem_mapSet tbl q.1 q.2 p h1 with h2 | h2
      · exact Or.inl h2
      · exact Or.inr (by simp [h2])
    · exact Or.inr (List.mem_cons_of_mem _ h1)

/-- Claim C7: a signal the platform cannot subscribe to never appears in the
listeners map (its subscription failure is swallowed and the entry is
skipped), and a forwarding failure (`child.kill` throwing) is swallowed by
the listener, which always returns normally even though the underlying kill
genuinely failed. -/
theorem C7_signal_failures_swallowed (env : Env) (base : Nat)
    (initSig : List (Signal × Nat)) (sg : Signal) (j : Nat)
    (k : Signal → Bool) (s : Signal)
    (hmem : (sg, j) ∈ (proxySignals env base initSig).2)
    (hk : k s = false) :
    env.supported sg = true
    ∧ signalListener k s = Except.ok ()
    ∧ childKillE k s = Except.error () := by
  refine ⟨?_, ?_, ?_⟩
  · rw [proxySignals, proxyLoop_eq] at hmem
    rcases mem_foldl_mapSet _ [] (sg, j) hmem with h | h
    · simp at h
    · exact (mem_addedListeners env.supported env.signals base (sg, j) h).1
  · simp [signalListener, childKillE, hk]
  · simp [childKillE, hk]

/-- A platform that recognizes only "SIGINT" and where the child can never
be signalled. -/
def envB : Env :=
  { supported := fun s => s == "SIGINT"
    childKillable := fun _ => false
    selfKillFails := fun _ => false
    signals := ["SIGINT", "SIGFAKE"]
    hasIPC := false }

/-- Witness for C7: "SIGINT" lands in the table of `envB`, and forwarding
"SIGHUP" to an unkillable child fails but is swallowed. -/
theorem C7_witness :
    envB.supported "SIGINT" = true
    ∧ signalListener (fun _ => false) "SIGHUP" = Except.ok ()
    ∧ childKillE (fun _ => false) "SIGHUP" = Except.error () :=
  C7_signal_failures_swallowed envB 0 [] "SIGINT" 0 (fun _ => false) "SIGHUP"
    (by decide) rfl

/-- The observable state of one foregroundChild run: the close-handler guard
flag, the parent's signal listeners, the `listeners` map captured by the
proxy closure, the parent's and the child's message listeners (identified by
number), whether the parent-exit hook is registered, and the effect trace so
far. -/
structure SysState where
  done : Bool
  sigListeners : List (Signal × Nat)
  proxyTable : List (Signal × Nat)
  msgListeners : List Nat
  childMsgListeners : List Nat
  exitHookInstalled : Bool
  trace : List Effect
deriving DecidableEq, Repr

/-- The listener id of the IPC relay listener added on the parent in
index.ts line 219, allocated after the proxy's listener ids. -/
def relayId (env : Env) (base : Nat) : Nat := base + env.signals.length

/-- Index.ts lines 142-169 and 212-225: what foregroundChild does before any
child event arrives.  The parent-exit hook is registered, the signal proxy is
started over the catalog, the guard flag is clear, and when the parent has an
IPC channel its `message` listeners are all removed and replaced by the relay
while the child gets a relay listener of its own (id 0). -/
def fgSetup (env : Env) (initSig : List (Signal × Nat)) (initMsg : List Nat)
    (base : Nat) : SysState :=
  { done := false
    sigListeners := (proxySignals env base initSig).1
    proxyTable := (proxySignals env base initSig).2
    msgListeners := if env.hasIPC then [relayId env base] else initMsg
    childMsgListeners := if env.hasIPC then [0] else []
    exitHookInstalled := true
    trace := [] }

inductive ChildEvent where
  | exitEv
  | closeEv (code : Option Int) (signal : Option Signal)
  | parentExitEv
deriving DecidableEq, Repr

/-- Index.ts lines 155-165 (`childHangup`): kill the child with "SIGHUP",
falling back to "SIGTERM" if that throws. -/
def childHangupEffects (env : Env) : List Effect :=
  [Effect.killChildAttempt "SIGHUP"] ++
    (if env.childKillable "SIGHUP" then [] else [Effect.killChildAttempt "SIGTERM"])

/-- One event of the orchestrator (index.ts lines 154-210 plus the exit-event
registration in proxy-signals.ts line 41): the child's exit event runs
`unproxy`; the parent-exit hook, while registered, hangs up the child; the
child's close event is guarded by `done`, runs the close handler body, and
unregisters the parent-exit hook (line 181, `removeOnExit()`). -/
def step (env : Env) (cleanup : Cleanup) : ChildEvent → SysState → SysState
  | ChildEvent.exitEv, st =>
    { st with sigListeners := removeAll st.proxyTable st.sigListeners }
  | ChildEvent.parentExitEv, st =>
    if st.exitHookInstalled then
      { st with trace := st.trace ++ childHangupEffects env }
    else st
  | ChildEvent.closeEv code signal, st =>
    if st.done then st
    else
      { st with
        done := true
        exitHookInstalled := false
        trace := st.trace ++ closeTrace env cleanup code signal }

def isCleanupCall : Effect → Bool
  | Effect.cleanupCall _ _ => true
  | _ => false

theorem closeTrace_countP_cleanup (env : Env) (cleanup : Cleanup)
    (code : Option Int) (signal : Option Signal) :
    (closeTrace env cleanup code signal).countP (fun e => isCleanupCall e)
      = 1 := by
  rcases hfd : finalDisposition (awaitResult (cleanup code signal)) code signal
    with _ | ⟨c, s⟩
  · simp [closeTrace, hfd, isCleanupCall, List.countP_cons]
  · rcases s with _ | sg
    · simp [closeTrace, hfd, isCleanupCall, List.countP_cons]
    · by_cases h0 : sg = ""
      · simp [closeTrace, hfd, h0, isCleanupCall, List.countP_cons]
      · by_cases hf : env.selfKillFails sg = true
        · simp [closeTrace, hfd, h0, hf, isCleanupCall, List.countP_cons,
            List.countP_append]
        · simp [closeTrace, hfd, h0, hf, isCleanupCall, List.countP_cons,
            List.countP_append]

/-- Claim C2: with the guard flag clear, the child-close transition runs the
handler body exactly once — it sets the flag, appends the handler's effects
(among them exactly one cleanup invocation), and any later close delivery
leaves the state completely unchanged. -/
theorem C2_close_fires_exactly_once (env : Env) (cleanup : Cleanup)
    (st : SysState) (c c' : Option Int) (s s' : Option Signal)
    (h : st.done = false) :
    (step env cleanup (ChildEvent.closeEv c s) st).done = true
    ∧ (step env cleanup (ChildEvent.closeEv c s) st).trace
        = st.trace ++ closeTrace env cleanup c s
    ∧ (step env cleanup (ChildEvent.closeEv c s) st).trace.countP
          (fun e => isCleanupCall e)
        = st.trace.countP (fun e => isCleanupCall e) + 1
    ∧ step env cleanup (ChildEvent.closeEv c' s')
          (step env cleanup (ChildEvent.closeEv c s) st)
        = step env cleanup (ChildEvent.closeEv c s) st := by
  refine ⟨?_, ?_, ?_, ?_⟩ <;>
    simp [step, h, List.countP_append, closeTrace_countP_cleanup]

/-- Witness for C2 on a freshly set-up run. -/
theorem C2_witness :
    (step envA (fun _ _ => CleanupReturn.now CleanupResult.undef)
        (ChildEvent.closeEv (some 0) none) (fgSetup envA [] [] 0)).done = true
    ∧ (step envA (fun _ _ => CleanupReturn.now CleanupResult.undef)
        (ChildEvent.closeEv (some 0) none) (fgSetup envA [] [] 0)).trace
        = (fgSetup envA [] [] 0).trace
          ++ closeTrace envA (fun _ _ => CleanupReturn.now CleanupResult.undef)
              (some 0) none
    ∧ (step envA (fun _ _ => CleanupReturn.now CleanupResult.undef)
        (ChildEvent.closeEv (some 0) none) (fgSetup envA [] [] 0)).trace.countP
          (fun e => isCleanupCall e)
        = (fgSetup envA [] [] 0).trace.countP (fun e => isCleanupCall e) + 1
    ∧ step envA (fun _ _ => CleanupReturn.now CleanupResult.undef)
          (ChildEvent.closeEv (some 1) none)
          (step envA (fun _ _ => CleanupReturn.now CleanupResult.undef)
            (ChildEvent.closeEv (some 0) none) (fgSetup envA [] [] 0))
        = step envA (fun _ _ => CleanupReturn.now CleanupResult.undef)
            (ChildEvent.closeEv (some 0) none) (fgSetup envA [] [] 0) :=
  C2_close_fires_exactly_once envA
    (fun _ _ => CleanupReturn.now CleanupResult.undef)
    (fgSetup envA [] [] 0) (some 0) (some 1) none none rfl

/-- A platform with one catalog signal and an IPC channel. -/
def envIPC : Env :=
  { supported := fun _ => true
    childKillable := fun _ => true
    selfKillFails := fun _ => false
    signals := ["SIGINT"]
    hasIPC := true }

/-- The state after a full run on `envIPC`: setup with one pre-existing
message listener (id 100), then the child's exit event, then its close
event. -/
def teardownDemo : SysState :=
  step envIPC (fun _ _ => CleanupReturn.now CleanupResult.undef)
    (ChildEvent.closeEv (some 0) none)
    (step envIPC (fun _ _ => CleanupReturn.now CleanupResult.undef)
      ChildEvent.exitEv (fgSetup envIPC [] [100] 0))

/-- Counterexample to claim C1 as stated: after the child terminated and all
teardown ran, the listeners map still holds its entry (`unproxy` never clears
the map), and the parent carries the relay message listener (id 1), which did
not exist before the run — the pre-existing listener was id 100. -/
theorem C1_counterexample :
    teardownDemo.proxyTable ≠ []
    ∧ teardownDemo.msgListeners ≠ [100]
    ∧ 1 ∈ teardownDemo.msgListeners
    ∧ (1 : Nat) ∉ ([100] : List Nat) := by decide

/-- Claim C1 (amended): after the child's exit event runs `unproxy` and the
close handler runs, the parent's signal-listener list is restored exactly to
its pre-run state, but the listeners map object still holds its entries (it
is not cleared), and when an IPC channel exists the relay message listener
installed at spawn remains attached while the pre-existing message listeners
were already removed at spawn time. -/
theorem C1_amended_signal_teardown (env : Env) (cleanup : Cleanup)
    (initSig : List (Signal × Nat)) (initMsg : List Nat) (base : Nat)
    (c : Option Int) (s : Option Signal)
    (hn : env.signals.Nodup)
    (hfresh : ∀ p ∈ initSig, p.2 < base) :
    ((step env cleanup (ChildEvent.closeEv c s)
        (step env cleanup ChildEvent.exitEv
          (fgSetup env initSig initMsg base))).sigListeners = initSig)
    ∧ ((step env cleanup (ChildEvent.closeEv c s)
        (step env cleanup ChildEvent.exitEv
          (fgSetup env initSig initMsg base))).proxyTable
        = addedListeners env.supported env.signals base)
    ∧ ((step env cleanup (ChildEvent.closeEv c s)
        (step env cleanup ChildEvent.exitEv
          (fgSetup env initSig initMsg base))).msgListeners
        = if env.hasIPC then [relayId env base] else initMsg) := by
  have hdisj : ∀ p ∈ addedListeners env.supported env.signals base,
      p ∉ initSig := by
    intro p hp hpin
    have h2 := (mem_addedListeners env.supported env.signals base p hp).2.2.1
    have h3 := hfresh p hpin
    omega
  have hnd : (addedListeners env.supported env.signals base).Nodup :=
    List.Nodup.of_map Prod.fst
      (keys_addedListeners_nodup env.supported env.signals base hn)
  have hrest : removeAll (addedListeners env.supported env.signals base)
      (initSig ++ addedListeners env.supported env.signals base) = initSig :=
    removeAll_restores _ initSig hdisj hnd
  refine ⟨?_, ?_, ?_⟩ <;>
    simp [step, fgSetup, proxySignals_eq env base initSig hn, hrest]

/-- Witness for C1 (amended) on `envIPC` with one stale listener. -/
theorem C1_amended_witness :
    ((step envIPC (fun _ _ => CleanupReturn.now CleanupResult.undef)
        (ChildEvent.closeEv (some 0) none)
        (step envIPC (fun _ _ => CleanupReturn.now CleanupResult.undef)
          ChildEvent.exitEv
          (fgSetup envIPC [("SIGUSR1", 0)] [100] 5))).sigListeners
        = [("SIGUSR1", 0)])
    ∧ ((step envIPC (fun _ _ => CleanupReturn.now CleanupResult.undef)
        (ChildEvent.closeEv (some 0) none)
        (step envIPC (fun _ _ => CleanupReturn.now CleanupResult.undef)
          ChildEvent.exitEv
          (fgSetup envIPC [("SIGUSR1", 0)] [100] 5))).proxyTable
        = addedListeners envIPC.supported envIPC.signals 5)
    ∧ ((step envIPC (fun _ _ => CleanupReturn.now CleanupResult.undef)
        (ChildEvent.closeEv (some 0) none)
        (step envIPC (fun _ _ => CleanupReturn.now CleanupResult.undef)
          ChildEvent.exitEv
          (fgSetup envIPC [("SIGUSR1", 0)] [100] 5))).msgListeners
        = if envIPC.hasIPC then [relayId envIPC 5] else [100]) :=
  C1_amended_signal_teardown envIPC
    (fun _ _ => CleanupReturn.now CleanupResult.undef)
    [("SIGUSR1", 0)] [100] 5 (some 0) none (by decide) (by decide)

/-- A platform with one catalog signal and no IPC channel. -/
def envS : Env :=
  { supported := fun _ => true
    childKillable := fun _ => true
    selfKillFails := fun _ => false
    signals := ["SIGINT"]
    hasIPC := false }

/-- Counterexample to claim C8 as stated: the orchestrator never uses the
returned stop-proxying function.  When the parent-exit hook fires, the
parent's signal listeners are untouched (and non-empty), and after the close
handler (cleanup resolved, `removeOnExit` called) they are still untouched:
neither teardown path unregisters the Signal Proxy. -/
theorem C8_counterexample :
    ((step envS (fun _ _ => CleanupReturn.now CleanupResult.undef)
        ChildEvent.parentExitEv (fgSetup envS [] [] 0)).sigListeners
      = (fgSetup envS [] [] 0).sigListeners)
    ∧ (fgSetup envS [] [] 0).sigListeners ≠ []
    ∧ ((step envS (fun _ _ => CleanupReturn.now CleanupResult.undef)
        (ChildEvent.closeEv (some 0) none) (fgSetup envS [] [] 0)).sigListeners
      = (fgSetup envS [] [] 0).sigListeners) := by decide

/-- Claim C8 (amended): `proxySignals` computes an unproxy action (modelled by
`removeAll` over the returned map) and registers it on the child's exit
event, but the orchestrator discards the returned function: the parent-exit
hook only sends the hang-up (with a single terminate fallback) to the child
without touching the signal listeners, and after the cleanup value resolves
only the parent-exit hook is unregistered.  The signal handlers are removed
by the child's exit event instead, and that removal is idempotent. -/
theorem C8_amended_teardown (env : Env) (cleanup : Cleanup)
    (initSig : List (Signal × Nat)) (initMsg : List Nat) (base : Nat)
    (c : Option Int) (s : Option Signal)
    (hn : env.signals.Nodup) (hfresh : ∀ p ∈ initSig, p.2 < base) :
    (step env cleanup ChildEvent.exitEv
        (fgSetup env initSig initMsg base)).sigListeners
      = removeAll (fgSetup env initSig initMsg base).proxyTable
          (fgSetup env initSig initMsg base).sigListeners
    ∧ step env cleanup ChildEvent.exitEv
          (step env cleanup ChildEvent.exitEv (fgSetup env initSig initMsg base))
        = step env cleanup ChildEvent.exitEv (fgSetup env initSig initMsg base)
    ∧ (step env cleanup ChildEvent.parentExitEv
        (fgSetup env initSig initMsg base)).sigListeners
        = (fgSetup env initSig initMsg base).sigListeners
    ∧ (step env cleanup ChildEvent.parentExitEv
        (fgSetup env initSig initMsg base)).trace
        = (fgSetup env initSig initMsg base).trace ++ childHangupEffects env
    ∧ (step env cleanup (ChildEvent.closeEv c s)
        (fgSetup env initSig initMsg base)).exitHookInstalled = false
    ∧ (step env cleanup (ChildEvent.closeEv c s)
        (fgSetup env initSig initMsg base)).sigListeners
        = (fgSetup env initSig initMsg base).sigListeners := by
  have hdisj : ∀ p ∈ addedListeners env.supported env.signals base,
      p ∉ initSig := by
    intro p hp hpin
    have h2 := (mem_addedListeners env.supported env.signals base p hp).2.2.1
    have h3 := hfresh p hpin
    omega
  have hnd : (addedListeners env.supported env.signals base).Nodup :=
    List.Nodup.of_map Prod.fst
      (keys_addedListeners_nodup env.supported env.signals base hn)
  have hrest : removeAll (addedListeners env.supported env.signals base)
      (initSig ++ addedListeners env.supported env.signals base) = initSig :=
    removeAll_restores _ initSig hdisj hnd
  have hidem : removeAll (addedListeners env.supported env.signals base)
      initSig = initSig :=
    removeAll_of_disjoint _ initSig hdisj
  refine ⟨rfl, ?_, ?_, ?_, ?_, ?_⟩ <;>
    simp [step, fgSetup, proxySignals_eq env base initSig hn, hrest, hidem]

/-- Witness for C8 (amended) on `envS` with one stale listener. -/
theorem C8_amended_witness :
    (step envS (fun _ _ => CleanupReturn.now CleanupResult.undef)
        ChildEvent.exitEv (fgSetup envS [("SIGUSR2", 1)] [] 3)).sigListeners
      = removeAll (fgSetup envS [("SIGUSR2", 1)] [] 3).proxyTable
          (fgSetup envS [("SIGUSR2", 1)] [] 3).sigListeners
    ∧ step envS (fun _ _ => CleanupReturn.now CleanupResult.undef)
          ChildEvent.exitEv
          (step envS (fun _ _ => CleanupReturn.now CleanupResult.undef)
            ChildEvent.exitEv (fgSetup envS [("SIGUSR2", 1)] [] 3))
        = step envS (fun _ _ => CleanupReturn.now CleanupResult.undef)
            ChildEvent.exitEv (fgSetup envS [("SIGUSR2", 1)] [] 3)
    ∧ (step envS (fun _ _ => CleanupReturn.now CleanupResult.undef)
        ChildEvent.parentExitEv (fgSetup envS [("SIGUSR2", 1)] [] 3)).sigListeners
        = (fgSetup envS [("SIGUSR2", 1)] [] 3).sigListeners
    ∧ (step envS (fun _ _ => CleanupReturn.now CleanupResult.undef)
        ChildEvent.parentExitEv (fgSetup envS [("SIGUSR2", 1)] [] 3)).trace
        = (fgSetup envS [("SIGUSR2", 1)] [] 3).trace ++ childHangupEffects envS
    ∧ (step envS (fun _ _ => CleanupReturn.now CleanupResult.undef)
        (ChildEvent.closeEv (some 2) none)
        (fgSetup envS [("SIGUSR2", 1)] [] 3)).exitHookInstalled = false
    ∧ (step envS (fun _ _ => CleanupReturn.now CleanupResult.undef)
        (ChildEvent.closeEv (some 2) none)
        (fgSetup envS [("SIGUSR2", 1)] [] 3)).sigListeners
        = (fgSetup envS [("SIGUSR2", 1)] [] 3).sigListeners :=
  C8_amended_teardown envS (fun _ _ => CleanupReturn.now CleanupResult.undef)
    [("SIGUSR2", 1)] [] 3 (some 2) none (by decide) (by decide)

/-- One slot of the stdio configuration: an inherited file descriptor of the
parent, or the IPC channel marker. -/
inductive StdioEntry where
  | fd (n : Nat)
  | ipc
deriving DecidableEq, Repr

/-- Index.ts lines 145-146: the stdio configuration handed to spawn — the
parent's three standard streams, plus an IPC slot exactly when the parent
has a channel (`process.send` is set). -/
def fgStdio (hasIPC : Bool) : List StdioEntry :=
  if hasIPC then
    [StdioEntry.fd 0, StdioEntry.fd 1, StdioEntry.fd 2, StdioEntry.ipc]
  else [StdioEntry.fd 0, StdioEntry.fd 1, StdioEntry.fd 2]

/-- A message-relay action: forward to the parent's channel or the child's. -/
inductive MsgEffect where
  | toParent (m : Nat)
  | toChild (m : Nat)
deriving DecidableEq, Repr

/-- Index.ts lines 215-217: messages received from the child are forwarded to
the parent's channel. -/
def childMessageRelay (m : Nat) : MsgEffect := MsgEffect.toParent m

/-- Index.ts lines 219-224: messages received by the parent are forwarded to
the child. -/
def parentMessageRelay (m : Nat) : MsgEffect := MsgEffect.toChild m

/-- A spawn-options object: the stdio field that foregroundChild overrides,
and a stand-in for every other field (so that a shallow copy is
observable). -/
structure SpawnOptions where
  stdio : Option (List StdioEntry)
  other : Nat
deriving DecidableEq, Repr

def emptyOpts : SpawnOptions := { stdio := none, other := 0 }

/-- A heap of options objects; object references are indices, and allocation
appends. -/
abbrev Store := List SpawnOptions

/-- The argument values foregroundChild can receive (the `FgArgs` overloads):
a string, a string array, an options object (by reference), a function, or a
missing slot. -/
inductive JVal where
  | vstr (s : String)
  | varr (l : List String)
  | vopts (r : Nat)
  | vfn (f : Nat)
  | vundef
deriving DecidableEq, Repr

def getArg (fgArgs : List JVal) (i : Nat) : JVal := fgArgs.getD i JVal.vundef

def derefOpts (st : Store) (r : Nat) : SpawnOptions := st.getD r emptyOpts

def asStrList : JVal → List String
  | JVal.varr l => l
  | _ => []

/-- Assignment through an object reference. -/
def setStore : Store → Nat → SpawnOptions → Store
  | [], _, _ => []
  | _ :: rest, 0, v => v :: rest
  | a :: rest, Nat.succ n, v => a :: setStore rest n v

/-- Index.ts line 87, the destructuring with defaults: a missing args slot
defaults to an empty array, a missing options slot allocates a fresh empty
object, and a missing cleanup slot is the shared default no-op (id 0). -/
def destructured (st : Store) (fgArgs : List JVal) :
    Store × JVal × JVal × JVal × JVal :=
  let program := getArg fgArgs 0
  let args := match getArg fgArgs 1 with | JVal.vundef => JVal.varr [] | v => v
  let cl := match getArg fgArgs 3 with | JVal.vundef => JVal.vfn 0 | w => w
  match getArg fgArgs 2 with
  | JVal.vundef => (st ++ [emptyOpts], program, args, JVal.vopts st.length, cl)
  | v => (st, program, args, v, cl)

/-- Index.ts lines 88-99: shape dispatch.  A function in the args slot is the
cleanup and the options become a fresh empty object; a (non-array) object in
the args slot becomes the options (promoting a function in the options slot
to cleanup); otherwise a function in the options slot is the cleanup and the
options become a fresh empty object. -/
def dispatched (st : Store) (args spawnOpts cleanup : JVal) :
    Store × JVal × JVal × JVal :=
  match args with
  | JVal.vfn f =>
    (st ++ [emptyOpts], JVal.varr [], JVal.vopts st.length, JVal.vfn f)
  | JVal.vopts r =>
    (st, JVal.varr [], JVal.vopts r,
      match spawnOpts with | JVal.vfn g => JVal.vfn g | _ => cleanup)
  | a =>
    match spawnOpts with
    | JVal.vfn g => (st ++ [emptyOpts], a, JVal.vopts st.length, JVal.vfn g)
    | sp => (st, a, sp, cleanup)

/-- Index.ts lines 100-104: an array program supplies the command and
overrides the args. -/
def splitProgram (program args : JVal) : JVal × JVal :=
  match program with
  | JVal.varr [] => (JVal.vundef, JVal.varr [])
  | JVal.varr (pp :: pa) => (JVal.vstr pp, JVal.varr pa)
  | p => (p, args)

/-- Index.ts lines 79-106 (`normalizeFgArgs`) in store-passing style: the
returned options reference is always a freshly allocated shallow copy of the
resolved options object (line 105, the spread). -/
def normalizeFgArgs (st : Store) (fgArgs : List JVal) :
    Store × JVal × List String × Nat × JVal :=
  match destructured st fgArgs with
  | (st1, program0, args0, sp0, cl0) =>
    match dispatched st1 args0 sp0 cl0 with
    | (st2, args1, sp1, cl1) =>
      match splitProgram program0 args1 with
      | (program, args) =>
        let contents := match sp1 with
          | JVal.vopts r => derefOpts st2 r
          | _ => emptyOpts
        (st2 ++ [contents], program, asStrList args, st2.length, cl1)

/-- Index.ts lines 142-146: normalize the arguments, then write the stdio
configuration onto the (freshly copied) options object. -/
def fgPrepare (st : Store) (fgArgs : List JVal) (hasIPC : Bool) :
    Store × JVal × List String × Nat × JVal :=
  match normalizeFgArgs st fgArgs with
  | (st1, program, args, r, cleanup) =>
    (setStore st1 r { derefOpts st1 r with stdio := some (fgStdio hasIPC) },
      program, args, r, cleanup)

theorem getD_append_left (d : SpawnOptions) :
    ∀ (l1 l2 : Store) (i : Nat), i < l1.length →
      (l1 ++ l2).getD i d = l1.getD i d := by
  intro l1
  induction l1 with
  | nil => intro l2 i h; simp at h
  | cons a rest ih =>
    intro l2 i h
    cases i with
    | zero => simp
    | succ n =>
      simp only [List.cons_append, List.getD_cons_succ]
      exact ih l2 n (Nat.lt_of_succ_lt_succ h)

theorem getD_append_self (d x : SpawnOptions) :
    ∀ l : Store, (l ++ [x]).getD l.length d = x := by
  intro l
  induction l with
  | nil => rfl
  | cons a rest ih =>
    simp only [List.cons_append, List.length_cons, List.getD_cons_succ]
    exact ih

theorem getD_setStore_ne (d v : SpawnOptions) :
    ∀ (l : Store) (i j : Nat), i ≠ j →
      (setStore l j v).getD i d = l.getD i d := by
  intro l
  induction l with
  | nil => intro i j _; simp [setStore]
  | cons a rest ih =>
    intro i j hne
    cases j with
    | zero =>
      cases i with
      | zero => exact absurd rfl hne
      | succ n => simp [setStore]
    | succ m =>
      cases i with
      | zero => simp [setStore]
      | succ n =>
        simp only [setStore, List.getD_cons_succ]
        exact ih n m (fun h => hne (by rw [h]))

theorem getD_setStore_self (d v : SpawnOptions) :
    ∀ (l : Store) (r : Nat), r < l.length →
      (setStore l r v).getD r d = v := by
  intro l
  induction l with
  | nil => intro r h; simp at h
  | cons a rest ih =>
    intro r h
    cases r with
    | zero => rfl
    | succ n =>
      simp only [setStore, List.getD_cons_succ]
      exact ih n (Nat.lt_of_succ_lt_succ h)

theorem destructured_store (st : Store) (fgArgs : List JVal) :
    ∃ pad : Store, (destructured st fgArgs).1 = st ++ pad := by
  simp only [destructured]
  split
  · exact ⟨[emptyOpts], rfl⟩
  · exact ⟨[], by simp⟩

theorem dispatched_store (st : Store) (a sp c : JVal) :
    ∃ pad : Store, (dispatched st a sp c).1 = st ++ pad := by
  simp only [dispatched]
  split
  · exact ⟨[emptyOpts], rfl⟩
  · exact ⟨[], by simp⟩
  · split
    · exact ⟨[emptyOpts], rfl⟩
    · exact ⟨[], by simp⟩

theorem normalizeFgArgs_shape (st : Store) (fgArgs : List JVal) :
    ∃ (pad : Store) (o : SpawnOptions),
      (normalizeFgArgs st fgArgs).1 = (st ++ pad) ++ [o]
      ∧ (normalizeFgArgs st fgArgs).2.2.2.1 = (st ++ pad).length := by
  rcases hd : destructured st fgArgs with ⟨st1, p0, a0, sp0, c0⟩
  rcases hdis : dispatched st1 a0 sp0 c0 with ⟨st2, a1, sp1, c1⟩
  rcases hsp : splitProgram p0 a1 with ⟨pr, ar⟩
  obtain ⟨pad1, h1⟩ := destructured_store st fgArgs
  rw [hd] at h1
  obtain ⟨pad2, h2⟩ := dispatched_store st1 a0 sp0 c0
  rw [hdis] at h2
  dsimp only at h1 h2
  have hst2 : st2 = st ++ (pad1 ++ pad2) := by
    rw [h2, h1, List.append_assoc]
  cases sp1 with
  | vopts r =>
    refine ⟨pad1 ++ pad2, derefOpts st2 r, ?_, ?_⟩ <;>
      simp only [normalizeFgArgs, hd, hdis, hsp] <;> rw [hst2]
  | vstr s =>
    refine ⟨pad1 ++ pad2, emptyOpts, ?_, ?_⟩ <;>
      simp only [normalizeFgArgs, hd, hdis, hsp] <;> rw [hst2]
  | varr l =>
    refine ⟨pad1 ++ pad2, emptyOpts, ?_, ?_⟩ <;>
      simp only [normalizeFgArgs, hd, hdis, hsp] <;> rw [hst2]
  | vfn f =>
    refine ⟨pad1 ++ pad2, emptyOpts, ?_, ?_⟩ <;>
      simp only [normalizeFgArgs, hd, hdis, hsp] <;> rw [hst2]
  | vundef =>
    refine ⟨pad1 ++ pad2, emptyOpts, ?_, ?_⟩ <;>
      simp only [normalizeFgArgs, hd, hdis, hsp] <;> rw [hst2]

/-- Claim C9: spawn always receives a configuration inheriting the parent's
three standard streams, with an IPC slot exactly when the parent has a
channel; the prepared options object carries exactly that configuration;
when the channel exists, the parent's message listeners are replaced by the
relay (the pre-existing ones are detached) and the child gets a relay of its
own, and the two relays forward in opposite directions. -/
theorem C9_stdio_and_relay (env : Env) (initSig : List (Signal × Nat))
    (initMsg : List Nat) (base : Nat) (m : Nat) (st : Store)
    (fgArgs : List JVal) :
    fgStdio true
        = [StdioEntry.fd 0, StdioEntry.fd 1, StdioEntry.fd 2, StdioEntry.ipc]
    ∧ fgStdio false = [StdioEntry.fd 0, StdioEntry.fd 1, StdioEntry.fd 2]
    ∧ StdioEntry.ipc ∈ fgStdio true
    ∧ StdioEntry.ipc ∉ fgStdio false
    ∧ (derefOpts (fgPrepare st fgArgs env.hasIPC).1
          (fgPrepare st fgArgs env.hasIPC).2.2.2.1).stdio
        = some (fgStdio env.hasIPC)
    ∧ (fgSetup env initSig initMsg base).msgListeners
        = (if env.hasIPC then [relayId env base] else initMsg)
    ∧ (fgSetup env initSig initMsg base).childMsgListeners
        = (if env.hasIPC then [0] else [])
    ∧ childMessageRelay m = MsgEffect.toParent m
    ∧ parentMessageRelay m = MsgEffect.toChild m := by
  obtain ⟨pad, o, h1, h2⟩ := normalizeFgArgs_shape st fgArgs
  refine ⟨rfl, rfl, by simp [fgStdio], by simp [fgStdio], ?_, rfl, rfl, rfl, rfl⟩
  rcases hn : normalizeFgArgs st fgArgs with ⟨st1, pr, ar, r, cl⟩
  rw [hn] at h1 h2
  dsimp only at h1 h2
  simp only [fgPrepare, hn]
  have hr : r < st1.length := by
    rw [h1, h2]
    simp
  rw [derefOpts, getD_setStore_self _ _ _ _ hr]

/-- Claim C10: foregroundChild never mutates a caller-supplied options
object: `normalizeFgArgs` returns a freshly allocated shallow copy of the
resolved options, the stdio override is applied to that copy only, every
object that existed before the call is unchanged afterwards, and for the
canonical four-argument call shape the copy's contents equal the caller's
object's contents. -/
theorem C10_no_caller_mutation (st : Store) (fgArgs : List JVal)
    (hasIPC : Bool) (i q : Nat) (p : String) (a : List String) (f : Nat)
    (hi : i < st.length) :
    (fgPrepare st fgArgs hasIPC).1.getD i emptyOpts = st.getD i emptyOpts
    ∧ st.length ≤ (fgPrepare st fgArgs hasIPC).2.2.2.1
    ∧ derefOpts
        (normalizeFgArgs st
          [JVal.vstr p, JVal.varr a, JVal.vopts q, JVal.vfn f]).1
        (normalizeFgArgs st
          [JVal.vstr p, JVal.varr a, JVal.vopts q, JVal.vfn f]).2.2.2.1
      = derefOpts st q := by
  obtain ⟨pad, o, h1, h2⟩ := normalizeFgArgs_shape st fgArgs
  rcases hn : normalizeFgArgs st fgArgs with ⟨st1, pr, ar, r, cl⟩
  rw [hn] at h1 h2
  dsimp only at h1 h2
  have hlen : r = st.length + pad.length := by rw [h2]; simp
  refine ⟨?_, ?_, ?_⟩
  · simp only [fgPrepare, hn]
    have hir : i ≠ r := by omega
    rw [getD_setStore_ne _ _ _ _ _ hir, h1,
      getD_append_left _ _ _ _ (by simp; omega),
      getD_append_left _ _ _ _ hi]
  · simp only [fgPrepare, hn]
    omega
  · have hcanon : normalizeFgArgs st
        [JVal.vstr p, JVal.varr a, JVal.vopts q, JVal.vfn f]
        = (st ++ [derefOpts st q], JVal.vstr p, a, st.length, JVal.vfn f) :=
      rfl
    rw [hcanon]
    exact getD_append_self _ _ st

/-- Witness for C10 on a two-object heap. -/
theorem C10_witness :
    (fgPrepare [{ stdio := none, other := 42 }, { stdio := none, other := 7 }]
        [JVal.vstr "node", JVal.varr ["x"], JVal.vopts 1, JVal.vfn 5]
        true).1.getD 0 emptyOpts
      = [({ stdio := none, other := 42 } : SpawnOptions),
         { stdio := none, other := 7 }].getD 0 emptyOpts
    ∧ ([({ stdio := none, other := 42 } : SpawnOptions),
        { stdio := none, other := 7 }] : Store).length
      ≤ (fgPrepare
          [{ stdio := none, other := 42 }, { stdio := none, other := 7 }]
          [JVal.vstr "node", JVal.varr ["x"], JVal.vopts 1, JVal.vfn 5]
          true).2.2.2.1
    ∧ derefOpts
        (normalizeFgArgs
          [{ stdio := none, other := 42 }, { stdio := none, other := 7 }]
          [JVal.vstr "node", JVal.varr ["x"], JVal.vopts 1, JVal.vfn 5]).1
        (normalizeFgArgs
          [{ stdio := none, other := 42 }, { stdio := none, other := 7 }]
          [JVal.vstr "node", JVal.varr ["x"], JVal.vopts 1, JVal.vfn 5]).2.2.2.1
      = derefOpts
          [{ stdio := none, other := 42 }, { stdio := none, other := 7 }] 1 :=
  C10_no_caller_mutation
    [{ stdio := none, other := 42 }, { stdio := none, other := 7 }]
    [JVal.vstr "node", JVal.varr ["x"], JVal.vopts 1, JVal.vfn 5]
    true 0 1 "node" ["x"] 5 (by decide)

end ForegroundChild
